import Mathlib

/-!
Verification of the asynchronous request-correlation and result-delivery core
of the emotion-driven movie recommendation pipeline.

The embedding models, per source file:
* src/webapp/app.py — the Request Gateway (route /api/recommend), the Result
  Sink (RESULTS_CACHE together with the result_callback of the consumer
  thread), and the Result Poller endpoint (route /get_result/<request_id>).
* src/workers/worker_emotion.py — the emotion Stage Worker callback.
* src/workers/worker_recomendador.py — the recommender Stage Worker callback,
  the catalog ranking query (get_recommendations_from_db) and the
  personalization rewrite (rewrite_synopsis_with_gemini).

External collaborators (the broker, the emotion classifier, the sentence
embedder, the pgvector distance operator, the Gemini generation call and the
database connection) are parameters of the embedded functions.  A worker
callback is embedded as a function from its (already received) message body to
the ordered list of channel operations it performs; message bodies are
modelled by a small JSON value type, with json.loads failure represented by
an absent parse result.
-/

/-- JSON values as produced by json.loads; numbers are modelled by rationals. -/
inductive Json where
  | null
  | bool (b : Bool)
  | num (q : ℚ)
  | str (s : String)
  | arr (elems : List Json)
  | obj (fields : List (String × Json))

mutual

/-- Structural equality test for JSON values. -/
def Json.beq : Json → Json → Bool
  | .null, .null => true
  | .bool a, .bool b => a == b
  | .num a, .num b => a == b
  | .str a, .str b => a == b
  | .arr xs, .arr ys => Json.beqList xs ys
  | .obj fs, .obj gs => Json.beqFields fs gs
  | _, _ => false

/-- Equality test for JSON arrays. -/
def Json.beqList : List Json → List Json → Bool
  | [], [] => true
  | x :: xs, y :: ys => Json.beq x y && Json.beqList xs ys
  | _, _ => false

/-- Equality test for JSON object field lists. -/
def Json.beqFields : List (String × Json) → List (String × Json) → Bool
  | [], [] => true
  | (k, v) :: xs, (l, w) :: ys => k == l && Json.beq v w && Json.beqFields xs ys
  | _, _ => false

end

mutual

theorem Json.beq_iff : ∀ a b : Json, Json.beq a b = true ↔ a = b
  | .null, b => by cases b <;> simp [Json.beq]
  | .bool x, b => by cases b <;> simp [Json.beq]
  | .num x, b => by cases b <;> simp [Json.beq]
  | .str x, b => by cases b <;> simp [Json.beq]
  | .arr xs, b => by
      cases b <;> simp [Json.beq]
      exact Json.beqList_iff xs _
  | .obj fs, b => by
      cases b <;> simp [Json.beq]
      exact Json.beqFields_iff fs _

theorem Json.beqList_iff : ∀ xs ys : List Json, Json.beqList xs ys = true ↔ xs = ys
  | [], ys => by cases ys <;> simp [Json.beqList]
  | x :: xs, ys => by
      cases ys with
      | nil => simp [Json.beqList]
      | cons y ys => simp [Json.beqList, Json.beq_iff x y, Json.beqList_iff xs ys]

theorem Json.beqFields_iff :
    ∀ xs ys : List (String × Json), Json.beqFields xs ys = true ↔ xs = ys
  | [], ys => by cases ys <;> simp [Json.beqFields]
  | (k, v) :: xs, ys => by
      cases ys with
      | nil => simp [Json.beqFields]
      | cons p ys =>
        obtain ⟨l, w⟩ := p
        simp [Json.beqFields, Json.beq_iff v w, Json.beqFields_iff xs ys, and_assoc]

end

instance : DecidableEq Json := fun a b =>
  decidable_of_iff (Json.beq a b = true) (Json.beq_iff a b)

/-- Python truthiness of a JSON value, as used by the sources in tests such as
the check on user_query in recommend, on texto and request_id in the emotion
worker, and on emotion and request_id in the recommender. -/
def jsonTruthy : Json → Bool
  | .null => false
  | .bool b => b
  | .num q => if q = 0 then false else true
  | .str s => if s = "" then false else true
  | .arr xs => if xs = [] then false else true
  | .obj fs => if fs = [] then false else true

/-- data.get(key): field access on a parsed JSON object, None (null) when the
key is absent.  The sources only ever call .get on dict values; the non-object
case is handled separately at each call site of the embedding. -/
def jsonGet (j : Json) (key : String) : Json :=
  match j with
  | .obj fields =>
    match fields.lookup key with
    | some v => v
    | none => .null
  | _ => .null

/-- data.get(key, default): field access with an explicit default. -/
def jsonGetD (j : Json) (key : String) (dflt : Json) : Json :=
  match j with
  | .obj fields =>
    match fields.lookup key with
    | some v => v
    | none => dflt
  | _ => dflt

/-- One channel operation performed by a callback, in program order:
basic_publish, basic_ack, or basic_nack with requeue True or False. -/
inductive Act where
  | publish (routing_key : String) (body : Json)
  | ack
  | nackRequeue
  | nackDiscard
deriving DecidableEq

namespace WebApp

/-- Queue written by the gateway (input of the emotion worker). -/
def QUEUE_NAME_EMOTION : String := "cola_estado_usuario"

/-- Queue read by the result consumer thread (output of the recommender). -/
def QUEUE_NAME_RESULTS : String := "cola_resultados_finales"

/-- RESULTS_CACHE: the Result Sink map from request_id to the stored
recommendations value.  A Python dict is modelled as an association list
whose keys are unique; the operations below preserve key uniqueness. -/
abbrev Cache := List (Json × Json)

/-- Dict lookup: RESULTS_CACHE.get / the membership test request_id in
RESULTS_CACHE. -/
def cacheLookup : Cache → Json → Option Json
  | [], _ => none
  | (k, v) :: rest, key => if k = key then some v else cacheLookup rest key

/-- Dict assignment RESULTS_CACHE[request_id] = recommendations: replaces the
existing entry for the key in place, otherwise appends a new entry. -/
def cacheInsert : Cache → Json → Json → Cache
  | [], key, v => [(key, v)]
  | (k, w) :: rest, key, v =>
    if k = key then (key, v) :: rest else (k, w) :: cacheInsert rest key v

/-- Dict removal RESULTS_CACHE.pop(request_id): removes the entry for the key
(the first one, which under key uniqueness is the only one). -/
def cacheErase : Cache → Json → Cache
  | [], _ => []
  | (k, w) :: rest, key =>
    if k = key then rest else (k, w) :: cacheErase rest key

/-- result_callback of the consumer thread in start_result_consumer:
parses the body, stores the recommendations keyed by request_id when the id
is truthy and the recommendations field is not None, and acknowledges; any
exception (including a json.loads failure, raw = none, or an AttributeError
from .get on a non-object) is answered by basic_nack with requeue=True.
Returns the updated cache and the channel operation performed. -/
def result_callback (cache : Cache) (raw : Option Json) : Cache × Act :=
  match raw with
  | none => (cache, Act.nackRequeue)
  | some data =>
    match data with
    | Json.obj _ =>
      let request_id := jsonGet data "request_id"
      let recommendations := jsonGet data "recommendations"
      if jsonTruthy request_id ∧ recommendations ≠ Json.null then
        (cacheInsert cache request_id recommendations, Act.ack)
      else
        (cache, Act.ack)
    | _ => (cache, Act.nackRequeue)

/-- Responses of the /api/recommend route: 200 with the fresh request_id,
400 when the query is falsy, 503 when the publish channel is down, and the
unhandled-exception path for a non-object body (data.get raises). -/
inductive GwResponse where
  | success (request_id : String)
  | badRequest
  | unavailable
  | serverError
deriving DecidableEq

/-- The recommend route handler.  channelUp models whether
RABBITMQ_CHANNEL_PUBLISH is not None; request_id is the value minted by
str(uuid.uuid4()) for this call; data is the parsed request body.  Returns
the HTTP outcome and the list of (routing_key, body) messages published. -/
def recommend (channelUp : Bool) (data : Json) (request_id : String) :
    GwResponse × List (String × Json) :=
  if channelUp = false then (GwResponse.unavailable, [])
  else
    match data with
    | Json.obj _ =>
      let user_query := jsonGet data "query"
      if jsonTruthy user_query then
        (GwResponse.success request_id,
         [(QUEUE_NAME_EMOTION,
           Json.obj [("query", user_query), ("request_id", Json.str request_id)])])
      else
        (GwResponse.badRequest, [])
    | _ => (GwResponse.serverError, [])

/-- Responses of the /get_result/<request_id> route: 200 ready with the
recommendations, or 202 pending. -/
inductive PollResult where
  | ready (recommendations : Json)
  | pending
deriving DecidableEq

/-- The get_result route handler: if the id is present in RESULTS_CACHE, pop
the value, wrap a non-list value in a singleton list, and answer ready;
otherwise answer pending.  Returns the response and the updated cache. -/
def get_result (cache : Cache) (request_id : String) : PollResult × Cache :=
  match cacheLookup cache (Json.str request_id) with
  | some v =>
    let recommendations :=
      match v with
      | Json.arr xs => Json.arr xs
      | other => Json.arr [other]
    (PollResult.ready recommendations, cacheErase cache (Json.str request_id))
  | none => (PollResult.pending, cache)

end WebApp

namespace WorkerEmotion

/-- Input queue of the emotion worker. -/
def QUEUE_NAME : String := "cola_estado_usuario"

/-- Output queue of the emotion worker. -/
def NEXT_QUEUE_NAME : String := "cola_emocion_detectada"

/-- The callback of worker_emotion.py.  analyzer is the global model: none
while not loaded; when loaded, predict returns the emotion label, or none
when the prediction call raises (the generic exception handler answers
basic_nack requeue=True).  raw is the json.loads result of the body (none on
a JSONDecodeError, which is answered by an ack that discards the message).
A parseable non-object body makes data.get raise an AttributeError, which the
generic exception handler answers with basic_nack requeue=True. -/
def callback (analyzer : Option (Json → Option String)) (raw : Option Json) :
    List Act :=
  match analyzer with
  | none => [Act.nackRequeue]
  | some predict =>
    match raw with
    | none => [Act.ack]
    | some data =>
      match data with
      | Json.obj _ =>
        let texto := jsonGetD data "query" (Json.str "")
        let request_id := jsonGet data "request_id"
        if jsonTruthy texto ∧ jsonTruthy request_id then
          match predict texto with
          | some emocion =>
            [Act.publish NEXT_QUEUE_NAME
               (Json.obj
                 [("emotion", Json.str emocion),
                  ("request_id", request_id),
                  ("query", texto)]),
             Act.ack]
          | none => [Act.nackRequeue]
        else
          [Act.ack]
      | _ => [Act.nackRequeue]

end WorkerEmotion

namespace WorkerRecomendador

/-- Input queue of the recommender worker. -/
def QUEUE_NAME_IN : String := "cola_emocion_detectada"

/-- Output queue of the recommender worker (read by the Result Sink). -/
def QUEUE_NAME_OUT : String := "cola_resultados_finales"

/-- One row of the Peliculas table as read by the ranking query. -/
structure MovieRow where
  titulo : String
  resumen : Option String
  rating_imdb : ℚ
  embedding : Option (List ℚ)

/-- One candidate dict built by get_recommendations_from_db. -/
structure Candidate where
  titulo : String
  resumen : Option String
  rating_imdb : ℚ
  score : ℚ
  emocion_buscada : String
deriving DecidableEq

/-- A candidate after the personalization loop of the callback: the resumen
key is deleted and the sinopsis and emocion_usada keys are added. -/
structure PersonalizedCandidate where
  titulo : String
  rating_imdb : ℚ
  score : ℚ
  emocion_buscada : String
  sinopsis : String
  emocion_usada : String
deriving DecidableEq

/-- get_recommendations_from_db: encodes the query text with the sentence
embedder, keeps the rows whose embedding is not NULL, orders them by the
pgvector cosine-distance operator (ascending distance, embedded as a sort by
that key), truncates to the LIMIT, and builds one candidate per row with
score = 1 - distance.  dOp is the external distance operator, encode the
external embedding model, catalog the table contents; its psycopg2 error
branch (which yields an empty list) is represented at the call sites by
instantiating the result with the empty list. -/
def get_recommendations_from_db (dOp : List ℚ → List ℚ → ℚ)
    (encode : String → List ℚ) (catalog : List MovieRow) (emotion : String)
    (lim : ℕ) : List Candidate :=
  let query_text := "Una película que me haga sentir " ++ emotion.toLower
  let emotion_embedding := encode query_text
  let rows := catalog.filter (fun r => r.embedding.isSome)
  let ranked := List.insertionSort
    (fun a b => dOp emotion_embedding (a.embedding.getD []) ≤
                dOp emotion_embedding (b.embedding.getD [])) rows
  (ranked.take lim).map (fun r =>
    { titulo := r.titulo
      resumen := r.resumen
      rating_imdb := r.rating_imdb
      score := 1 - dOp emotion_embedding (r.embedding.getD [])
      emocion_buscada := emotion })

/-- Outcome of one GEMINI_CLIENT.models.generate_content call: the response
text, an APIError, or any other exception. -/
inductive GenOutcome where
  | ok (text : String)
  | apiError
  | exn

/-- Substring membership test, the Python expression keyword in emotion_lower. -/
def strContainsSub (haystack needle : String) : Bool :=
  go haystack.data
where
  /-- Checks the needle against every suffix of the haystack. -/
  go : List Char → Bool
  | [] => needle.data.isEmpty
  | c :: rest => needle.data.isPrefixOf (c :: rest) || go rest

/-- The emotion-to-instruction mapping of rewrite_synopsis_with_gemini. -/
def toneInstructionFor (emotion_lower : String) : String :=
  if ["tristeza", "miedo", "melancolía", "duelo", "decepcionado"].any
      (fun k => strContainsSub emotion_lower k) then
    "enfoca el resumen en la superación, la esperanza, el consuelo o la catarsis."
  else if ["alegría", "diversión", "felicidad", "entusiasmo", "feliz"].any
      (fun k => strContainsSub emotion_lower k) then
    "resalta el humor, la aventura, la ligereza y la energía positiva."
  else if ["enojo", "ira", "asco", "frustración", "rabia", "molesto"].any
      (fun k => strContainsSub emotion_lower k) then
    "enfoca el resumen en la acción, la justicia, la liberación de tensión o la comedia oscura."
  else if ["calma", "relajación", "paz", "tranquilidad", "serenidad", "neutro"].any
      (fun k => strContainsSub emotion_lower k) then
    "enfoca el resumen en la contemplación, la belleza visual, el drama reflexivo o la intriga intelectual."
  else
    "mantén un tono atractivo y enfocado en el misterio, la intriga y el entretenimiento general."

/-- The prompt string assembled by rewrite_synopsis_with_gemini. -/
def buildPrompt (synopsis emotion : String) : String :=
  "\n    Eres un experto en marketing de películas. Reescribe la siguiente sinopsis para hacerla \n    extremadamente atractiva y relevante para un usuario que se siente **"
    ++ emotion
    ++ "**.\n\n    Mantente fiel al argumento central. Ajusta el tono para apelar a la emoción del usuario:\n    - "
    ++ toneInstructionFor emotion.toLower
    ++ "\n\n    El resultado debe ser **solo la sinopsis reescrita**, sin encabezados, comillas ni explicaciones adicionales. Máximo 3 frases.\n\n    Sinopsis Original: \""
    ++ synopsis
    ++ "\"\n    Emoción del Usuario: \""
    ++ emotion
    ++ "\"\n    "

/-- rewrite_synopsis_with_gemini: returns the original synopsis when the
client is unavailable; otherwise calls generate_content on the assembled
prompt and returns the stripped, quote-free response text on success, and the
original synopsis on an APIError or any other exception. -/
def rewrite_synopsis_with_gemini (client : Option (String → GenOutcome))
    (synopsis : String) (emotion : String) : String :=
  match client with
  | none => synopsis
  | some generate_content =>
    match generate_content (buildPrompt synopsis emotion) with
    | GenOutcome.ok text => (text.trim).replace "\"" ""
    | GenOutcome.apiError => synopsis
    | GenOutcome.exn => synopsis

/-- The body of the personalization loop of the callback, for one movie dict:
reads and deletes the resumen key; when the original synopsis is truthy, sets
sinopsis to the rewrite of the original and emocion_usada to the emotion;
otherwise sets the placeholder sinopsis text.  rw is the rewrite function
(rewrite_synopsis_with_gemini applied to the global client). -/
def personalizeMovie (rw : String → String → String) (emotion : String)
    (movie : Candidate) : PersonalizedCandidate :=
  match movie.resumen with
  | some s =>
    if s = "" then
      { titulo := movie.titulo, rating_imdb := movie.rating_imdb,
        score := movie.score, emocion_buscada := movie.emocion_buscada,
        sinopsis := "Sin sinopsis original disponible para personalizar.",
        emocion_usada := emotion }
    else
      { titulo := movie.titulo, rating_imdb := movie.rating_imdb,
        score := movie.score, emocion_buscada := movie.emocion_buscada,
        sinopsis := rw s emotion, emocion_usada := emotion }
  | none =>
    { titulo := movie.titulo, rating_imdb := movie.rating_imdb,
      score := movie.score, emocion_buscada := movie.emocion_buscada,
      sinopsis := "Sin sinopsis original disponible para personalizar.",
      emocion_usada := emotion }

/-- JSON encoding of a personalized candidate dict, with the keys in dict
insertion order after the deletion of resumen. -/
def encodePersonalized (m : PersonalizedCandidate) : Json :=
  Json.obj
    [("titulo", Json.str m.titulo),
     ("rating_imdb", Json.num m.rating_imdb),
     ("score", Json.num m.score),
     ("emocion_buscada", Json.str m.emocion_buscada),
     ("sinopsis", Json.str m.sinopsis),
     ("emocion_usada", Json.str m.emocion_usada)]

/-- The callback of worker_recomendador.py.  getRecs is the result of
get_recommendations_from_db for the given emotion (the empty list when the
catalog has no candidates or the query errors); rw the synopsis rewrite;
dbOk whether get_db_connection succeeds (when it raises, the generic handler
answers basic_nack requeue=True); raw the json.loads result of the body (none
on a JSONDecodeError, answered by basic_nack requeue=False).  A parseable
non-object body makes data.get raise, answered by basic_nack requeue=True;
a truthy non-string emotion raises inside emotion.lower() after the database
connection is obtained, likewise answered by basic_nack requeue=True. -/
def callback (getRecs : String → List Candidate)
    (rw : String → String → String) (dbOk : Bool) (raw : Option Json) :
    List Act :=
  match raw with
  | none => [Act.nackDiscard]
  | some data =>
    match data with
    | Json.obj _ =>
      let emotionJ := jsonGet data "emotion"
      let request_id := jsonGet data "request_id"
      if jsonTruthy emotionJ ∧ jsonTruthy request_id then
        if dbOk then
          match emotionJ with
          | Json.str emotion =>
            let recommendations :=
              (getRecs emotion).map (personalizeMovie rw emotion)
            let final_payload := Json.obj
              [("request_id", request_id),
               ("recommendations",
                Json.arr (recommendations.map encodePersonalized))]
            [Act.publish QUEUE_NAME_OUT final_payload, Act.ack]
          | _ => [Act.nackRequeue]
        else [Act.nackRequeue]
      else
        [Act.ack]
    | _ => [Act.nackRequeue]

end WorkerRecomendador

/-- Modelled from the spec: the input constraint of the submit contract says
the request text must be non-empty after trimming whitespace.  This predicate
states that a string trims to empty (it consists of whitespace only). -/
def trimmedEmpty (s : String) : Bool :=
  s.data.all Char.isWhitespace

namespace WebApp

/-- Number of entries a cache holds for a given key. -/
def keyCount (c : Cache) (key : Json) : ℕ :=
  c.countP (fun p => decide (p.1 = key))

lemma cacheLookup_cacheInsert_self (c : Cache) (key v : Json) :
    cacheLookup (cacheInsert c key v) key = some v := by
  induction c with
  | nil => simp [cacheInsert, cacheLookup]
  | cons p rest ih =>
    obtain ⟨k, w⟩ := p
    by_cases hk : k = key
    · simp [cacheInsert, hk, cacheLookup]
    · simp [cacheInsert, hk, cacheLookup, ih]

lemma cacheLookup_cacheInsert_isSome (c : Cache) (key v t : Json)
    (h : cacheLookup c t ≠ none) : cacheLookup (cacheInsert c key v) t ≠ none := by
  induction c with
  | nil => simp [cacheLookup] at h
  | cons p rest ih =>
    obtain ⟨k, w⟩ := p
    by_cases hk : k = key
    · by_cases ht : key = t
      · simp [cacheInsert, hk, cacheLookup, ht]
      · simp [cacheInsert, hk, cacheLookup, ht] at h ⊢
        simpa [cacheLookup, hk ▸ ht] using h
    · by_cases ht : k = t
      · subst ht
        simp [cacheInsert, hk, cacheLookup]
      · simp [cacheInsert, hk, cacheLookup, ht] at h ⊢
        exact ih h

lemma cacheInsert_idem (c : Cache) (key v : Json) :
    cacheInsert (cacheInsert c key v) key v = cacheInsert c key v := by
  induction c with
  | nil => simp [cacheInsert]
  | cons p rest ih =>
    obtain ⟨k, w⟩ := p
    by_cases hk : k = key
    · simp [cacheInsert, hk]
    · simp [cacheInsert, hk, ih]

lemma keyCount_eq_zero_of_not_mem (c : Cache) (key : Json)
    (h : key ∉ c.map Prod.fst) : keyCount c key = 0 := by
  induction c with
  | nil => simp [keyCount]
  | cons p rest ih =>
    obtain ⟨k, w⟩ := p
    simp only [List.map_cons, List.mem_cons] at h
    push_neg at h
    have hz := ih h.2
    simp only [keyCount, List.countP_cons] at hz ⊢
    simp [hz, Ne.symm h.1]

lemma keyCount_cacheInsert (c : Cache) (key v : Json)
    (hnodup : (c.map Prod.fst).Nodup) :
    keyCount (cacheInsert c key v) key = 1 := by
  induction c with
  | nil => simp [cacheInsert, keyCount, List.countP_cons]
  | cons p rest ih =>
    obtain ⟨k, w⟩ := p
    simp only [List.map_cons, List.nodup_cons] at hnodup
    by_cases hk : k = key
    · have hz : keyCount rest key = 0 :=
        keyCount_eq_zero_of_not_mem rest key (hk ▸ hnodup.1)
      simp [cacheInsert, hk, keyCount, List.countP_cons] at hz ⊢
      exact hz
    · simp [cacheInsert, hk, keyCount, List.countP_cons] at ih ⊢
      exact ih hnodup.2

lemma cacheLookup_cacheErase_self (c : Cache) (key : Json)
    (hnodup : (c.map Prod.fst).Nodup) :
    cacheLookup (cacheErase c key) key = none := by
  induction c with
  | nil => simp [cacheErase, cacheLookup]
  | cons p rest ih =>
    obtain ⟨k, w⟩ := p
    simp only [List.map_cons, List.nodup_cons] at hnodup
    by_cases hk : k = key
    · subst hk
      simp only [cacheErase, if_pos rfl]
      have : ∀ d : Cache, k ∉ d.map Prod.fst → cacheLookup d k = none := by
        intro d
        induction d with
        | nil => intro _; simp [cacheLookup]
        | cons q ds ihd =>
          obtain ⟨kq, wq⟩ := q
          intro hmem
          simp only [List.map_cons, List.mem_cons] at hmem
          push_neg at hmem
          simp [cacheLookup, Ne.symm hmem.1]
          exact ihd hmem.2
      exact this rest hnodup.1
    · simp [cacheErase, hk, cacheLookup, hk, ih hnodup.2]

end WebApp

/-- C1: Pop-once retrieval.  If the Result Sink holds a result list for a
token, the first GET /get_result call returns ready with the stored
recommendations and removes the entry; an immediately following call with the
same token returns pending; and a call for a token with no stored result
returns pending and leaves the sink unchanged. -/
theorem C1_pop_once_retrieval (cache : WebApp.Cache) (rid : String)
    (xs : List Json) (hnodup : (cache.map Prod.fst).Nodup)
    (hpresent : WebApp.cacheLookup cache (Json.str rid) = some (Json.arr xs)) :
    WebApp.get_result cache rid
      = (WebApp.PollResult.ready (Json.arr xs),
         WebApp.cacheErase cache (Json.str rid))
    ∧ WebApp.get_result (WebApp.cacheErase cache (Json.str rid)) rid
      = (WebApp.PollResult.pending, WebApp.cacheErase cache (Json.str rid))
    ∧ (∀ (c : WebApp.Cache) (t : String),
        WebApp.cacheLookup c (Json.str t) = none →
        WebApp.get_result c t = (WebApp.PollResult.pending, c)) := by
  refine ⟨?_, ?_, ?_⟩
  · simp [WebApp.get_result, hpresent]
  · have h := WebApp.cacheLookup_cacheErase_self cache (Json.str rid) hnodup
    simp [WebApp.get_result, h]
  · intro c t h
    simp [WebApp.get_result, h]

theorem C1_pop_once_retrieval_witness :
    List.Nodup (([(Json.str "tok", Json.arr [])] : WebApp.Cache).map Prod.fst)
    ∧ WebApp.cacheLookup [(Json.str "tok", Json.arr [])] (Json.str "tok")
        = some (Json.arr [])
    ∧ WebApp.get_result [(Json.str "tok", Json.arr [])] "tok"
        = (WebApp.PollResult.ready (Json.arr []), [])
    ∧ WebApp.get_result [] "tok" = (WebApp.PollResult.pending, []) := by
  have h := C1_pop_once_retrieval [(Json.str "tok", Json.arr [])] "tok" []
    (by decide) (by decide)
  refine ⟨by decide, by decide, ?_, ?_⟩
  · simpa using h.1
  · simpa using h.2.1

/-- C3: Idempotent result application.  Delivering the same terminal message
to the Result Sink twice leaves the sink exactly as after the first delivery,
holds exactly one entry for the token, and that entry is the delivered value
(last-write-wins keyed by token, not append). -/
theorem C3_idempotent_result_application (cache : WebApp.Cache)
    (fs : List (String × Json))
    (hrid : jsonTruthy (jsonGet (Json.obj fs) "request_id") = true)
    (hrecs : jsonGet (Json.obj fs) "recommendations" ≠ Json.null)
    (hnodup : (cache.map Prod.fst).Nodup) :
    WebApp.result_callback
        (WebApp.result_callback cache (some (Json.obj fs))).1
        (some (Json.obj fs))
      = ((WebApp.result_callback cache (some (Json.obj fs))).1, Act.ack)
    ∧ WebApp.keyCount
        (WebApp.result_callback
          (WebApp.result_callback cache (some (Json.obj fs))).1
          (some (Json.obj fs))).1
        (jsonGet (Json.obj fs) "request_id") = 1
    ∧ WebApp.cacheLookup
        (WebApp.result_callback
          (WebApp.result_callback cache (some (Json.obj fs))).1
          (some (Json.obj fs))).1
        (jsonGet (Json.obj fs) "request_id")
      = some (jsonGet (Json.obj fs) "recommendations") := by
  have honce : (WebApp.result_callback cache (some (Json.obj fs))).1
      = WebApp.cacheInsert cache (jsonGet (Json.obj fs) "request_id")
          (jsonGet (Json.obj fs) "recommendations") := by
    simp [WebApp.result_callback, hrid, hrecs]
  refine ⟨?_, ?_, ?_⟩
  · simp [WebApp.result_callback, hrid, hrecs, honce,
      WebApp.cacheInsert_idem]
  · simp [WebApp.result_callback, hrid, hrecs, honce,
      WebApp.cacheInsert_idem, WebApp.keyCount_cacheInsert _ _ _ hnodup]
  · simp [WebApp.result_callback, hrid, hrecs, honce,
      WebApp.cacheInsert_idem, WebApp.cacheLookup_cacheInsert_self]

theorem C3_idempotent_result_application_witness :
    WebApp.result_callback
        (WebApp.result_callback []
          (some (Json.obj
            [("request_id", Json.str "tok"), ("recommendations", Json.arr [])]))).1
        (some (Json.obj
          [("request_id", Json.str "tok"), ("recommendations", Json.arr [])]))
      = ([(Json.str "tok", Json.arr [])], Act.ack)
    ∧ WebApp.keyCount [(Json.str "tok", Json.arr [])] (Json.str "tok") = 1 := by
  have h := C3_idempotent_result_application []
    [("request_id", Json.str "tok"), ("recommendations", Json.arr [])]
    (by decide) (by decide) (by decide)
  refine ⟨?_, by decide⟩
  have h1 := h.1
  simpa using h1

namespace WebApp

lemma result_callback_preserves_present (cache : Cache) (raw : Option Json)
    (t : Json) (h : cacheLookup cache t ≠ none) :
    cacheLookup (result_callback cache raw).1 t ≠ none := by
  match raw with
  | none => simpa [result_callback] using h
  | some data =>
    cases data with
    | obj fields =>
      by_cases hcond : jsonTruthy (jsonGet (Json.obj fields) "request_id") = true
        ∧ jsonGet (Json.obj fields) "recommendations" ≠ Json.null
      · simpa [result_callback, hcond.1, hcond.2] using
          cacheLookup_cacheInsert_isSome cache
            (jsonGet (Json.obj fields) "request_id")
            (jsonGet (Json.obj fields) "recommendations") t h
      · have : result_callback cache (some (Json.obj fields)) = (cache, Act.ack) := by
          simp only [result_callback]
          rw [if_neg]
          intro hc
          exact hcond ⟨hc.1, hc.2⟩
        simpa [this] using h
    | null => simpa [result_callback] using h
    | bool b => simpa [result_callback] using h
    | num q => simpa [result_callback] using h
    | str s => simpa [result_callback] using h
    | arr xs => simpa [result_callback] using h

end WebApp

/-- C9 counterexample: the claimed TTL eviction does not exist.  With the
token tok stored in the Result Sink, no amount of further activity by the
result consumer (the only background activity of the web app) ever removes
the entry: the proposition that some sequence of consumed messages leaves the
sink without the entry is false.  Only a poll of the token itself removes
it. -/
theorem C9_counterexample :
    (∃ bodies : List (Option Json),
      WebApp.cacheLookup
        (bodies.foldl (fun c b => (WebApp.result_callback c b).1)
          [(Json.str "tok", Json.arr [])])
        (Json.str "tok") = none)
    = False := by
  apply eq_false
  rintro ⟨bodies, hb⟩
  have main : ∀ (bs : List (Option Json)) (c : WebApp.Cache),
      WebApp.cacheLookup c (Json.str "tok") ≠ none →
      WebApp.cacheLookup
        (bs.foldl (fun c b => (WebApp.result_callback c b).1) c)
        (Json.str "tok") ≠ none := by
    intro bs
    induction bs with
    | nil => intro c h; simpa using h
    | cons b rest ih =>
      intro c h
      exact ih _ (WebApp.result_callback_preserves_present c b _ h)
  exact main bodies [(Json.str "tok", Json.arr [])] (by decide) hb

/-- C9 (amended): no TTL eviction exists.  An entry written to the Result
Sink and never polled stays there through any further sequence of messages
processed by the result consumer — the sink grows without bound for abandoned
requests — and polling a token with no stored entry returns pending with no
side effect rather than an error. -/
theorem C9_no_ttl_eviction (cache : WebApp.Cache) (t v : Json)
    (hpresent : WebApp.cacheLookup cache t = some v) :
    (∀ bodies : List (Option Json),
      WebApp.cacheLookup
        (bodies.foldl (fun c b => (WebApp.result_callback c b).1) cache) t
        ≠ none)
    ∧ (∀ (c : WebApp.Cache) (s : String),
        WebApp.cacheLookup c (Json.str s) = none →
        WebApp.get_result c s = (WebApp.PollResult.pending, c)) := by
  constructor
  · intro bodies
    have main : ∀ (bs : List (Option Json)) (c : WebApp.Cache),
        WebApp.cacheLookup c t ≠ none →
        WebApp.cacheLookup
          (bs.foldl (fun c b => (WebApp.result_callback c b).1) c) t ≠ none := by
      intro bs
      induction bs with
      | nil => intro c h; simpa using h
      | cons b rest ih =>
        intro c h
        exact ih _ (WebApp.result_callback_preserves_present c b t h)
    exact main bodies cache (by simp [hpresent])
  · intro c s h
    simp [WebApp.get_result, h]

theorem C9_no_ttl_eviction_witness :
    WebApp.cacheLookup
      ([(some (Json.obj
          [("request_id", Json.str "other"), ("recommendations", Json.arr [])]))].foldl
        (fun c b => (WebApp.result_callback c b).1)
        [(Json.str "tok", Json.arr [Json.str "x"])])
      (Json.str "tok") ≠ none := by
  exact (C9_no_ttl_eviction [(Json.str "tok", Json.arr [Json.str "x"])]
    (Json.str "tok") (Json.arr [Json.str "x"]) (by decide)).1 _

namespace WorkerEmotion

lemma emotion_callback_shape (analyzer : Option (Json → Option String))
    (raw : Option Json) :
    callback analyzer raw = [Act.nackRequeue]
    ∨ callback analyzer raw = [Act.ack]
    ∨ ∃ q b, callback analyzer raw = [Act.publish q b, Act.ack] := by
  match analyzer with
  | none => exact Or.inl rfl
  | some predict =>
    match raw with
    | none => exact Or.inr (Or.inl rfl)
    | some data =>
      cases data with
      | obj fields =>
        by_cases h1 : jsonTruthy (jsonGetD (Json.obj fields) "query" (Json.str "")) = true
        · by_cases h2 : jsonTruthy (jsonGet (Json.obj fields) "request_id") = true
          · cases hp : predict (jsonGetD (Json.obj fields) "query" (Json.str "")) with
            | some emocion =>
              refine Or.inr (Or.inr ⟨NEXT_QUEUE_NAME,
                Json.obj
                  [("emotion", Json.str emocion),
                   ("request_id", jsonGet (Json.obj fields) "request_id"),
                   ("query", jsonGetD (Json.obj fields) "query" (Json.str ""))],
                ?_⟩)
              simp [callback, h1, h2, hp]
            | none =>
              refine Or.inl ?_
              simp [callback, h1, h2, hp]
          · refine Or.inr (Or.inl ?_)
            simp [callback, h1, h2]
        · refine Or.inr (Or.inl ?_)
          simp [callback, h1]
      | null => exact Or.inl (by simp [callback])
      | bool b => exact Or.inl (by simp [callback])
      | num q => exact Or.inl (by simp [callback])
      | str s => exact Or.inl (by simp [callback])
      | arr xs => exact Or.inl (by simp [callback])

lemma emotion_callback_publish_inv (analyzer : Option (Json → Option String))
    (raw : Option Json) (q : String) (out : Json)
    (hmem : Act.publish q out ∈ callback analyzer raw) :
    ∃ (predict : Json → Option String) (fields : List (String × Json))
      (emocion : String),
      analyzer = some predict ∧ raw = some (Json.obj fields)
      ∧ jsonTruthy (jsonGetD (Json.obj fields) "query" (Json.str "")) = true
      ∧ jsonTruthy (jsonGet (Json.obj fields) "request_id") = true
      ∧ predict (jsonGetD (Json.obj fields) "query" (Json.str ""))
          = some emocion
      ∧ q = NEXT_QUEUE_NAME
      ∧ out = Json.obj
          [("emotion", Json.str emocion),
           ("request_id", jsonGet (Json.obj fields) "request_id"),
           ("query", jsonGetD (Json.obj fields) "query" (Json.str ""))] := by
  match analyzer with
  | none => simp [callback] at hmem
  | some predict =>
    match raw with
    | none => simp [callback] at hmem
    | some data =>
      cases data with
      | obj fields =>
        by_cases h1 : jsonTruthy (jsonGetD (Json.obj fields) "query" (Json.str "")) = true
        · by_cases h2 : jsonTruthy (jsonGet (Json.obj fields) "request_id") = true
          · cases hp : predict (jsonGetD (Json.obj fields) "query" (Json.str "")) with
            | some emocion =>
              simp only [callback, h1, h2, hp, and_self, if_true, true_and] at hmem
              simp only [List.mem_cons, List.mem_singleton] at hmem
              rcases hmem with h | h | h
              · cases h
                exact ⟨predict, fields, emocion, rfl, rfl, h1, h2, hp, rfl, rfl⟩
              · cases h
              · cases h
            | none =>
              simp [callback, h1, h2, hp] at hmem
          · simp [callback, h1, h2] at hmem
        · simp [callback, h1] at hmem
      | null => simp [callback] at hmem
      | bool b => simp [callback] at hmem
      | num q => simp [callback] at hmem
      | str s => simp [callback] at hmem
      | arr xs => simp [callback] at hmem

end WorkerEmotion

namespace WorkerRecomendador

lemma recomendador_callback_shape (getRecs : String → List Candidate)
    (rw : String → String → String) (dbOk : Bool) (raw : Option Json) :
    callback getRecs rw dbOk raw = [Act.nackRequeue]
    ∨ callback getRecs rw dbOk raw = [Act.nackDiscard]
    ∨ callback getRecs rw dbOk raw = [Act.ack]
    ∨ ∃ q b, callback getRecs rw dbOk raw = [Act.publish q b, Act.ack] := by
  match raw with
  | none => exact Or.inr (Or.inl rfl)
  | some data =>
    cases data with
    | obj fields =>
      by_cases h1 : jsonTruthy (jsonGet (Json.obj fields) "emotion") = true
      · by_cases h2 : jsonTruthy (jsonGet (Json.obj fields) "request_id") = true
        · cases hdb : dbOk with
          | true =>
            cases hem : jsonGet (Json.obj fields) "emotion" with
            | str emotion =>
              refine Or.inr (Or.inr (Or.inr ⟨QUEUE_NAME_OUT,
                Json.obj
                  [("request_id", jsonGet (Json.obj fields) "request_id"),
                   ("recommendations",
                    Json.arr (((getRecs emotion).map
                        (personalizeMovie rw emotion)).map encodePersonalized))],
                ?_⟩))
              rw [hem] at h1
              simp [callback, hem, h1, h2]
            | null =>
              rw [hem] at h1
              simp [jsonTruthy] at h1
            | bool b =>
              rw [hem] at h1
              exact Or.inl (by simp [callback, hem, h1, h2])
            | num q =>
              rw [hem] at h1
              exact Or.inl (by simp [callback, hem, h1, h2])
            | arr xs =>
              rw [hem] at h1
              exact Or.inl (by simp [callback, hem, h1, h2])
            | obj gs =>
              rw [hem] at h1
              exact Or.inl (by simp [callback, hem, h1, h2])
          | false => exact Or.inl (by simp [callback, h1, h2])
        · exact Or.inr (Or.inr (Or.inl (by simp [callback, h1, h2])))
      · exact Or.inr (Or.inr (Or.inl (by simp [callback, h1])))
    | null => exact Or.inl (by simp [callback])
    | bool b => exact Or.inl (by simp [callback])
    | num q => exact Or.inl (by simp [callback])
    | str s => exact Or.inl (by simp [callback])
    | arr xs => exact Or.inl (by simp [callback])

lemma recomendador_callback_publish_inv (getRecs : String → List Candidate)
    (rw : String → String → String) (dbOk : Bool) (raw : Option Json)
    (q : String) (out : Json)
    (hmem : Act.publish q out ∈ callback getRecs rw dbOk raw) :
    ∃ (fields : List (String × Json)) (emotion : String),
      raw = some (Json.obj fields) ∧ dbOk = true
      ∧ jsonGet (Json.obj fields) "emotion" = Json.str emotion
      ∧ jsonTruthy (jsonGet (Json.obj fields) "emotion") = true
      ∧ jsonTruthy (jsonGet (Json.obj fields) "request_id") = true
      ∧ q = QUEUE_NAME_OUT
      ∧ out = Json.obj
          [("request_id", jsonGet (Json.obj fields) "request_id"),
           ("recommendations",
            Json.arr (((getRecs emotion).map (personalizeMovie rw emotion)).map
              encodePersonalized))] := by
  match raw with
  | none => simp [callback] at hmem
  | some data =>
    cases data with
    | obj fields =>
      by_cases h1 : jsonTruthy (jsonGet (Json.obj fields) "emotion") = true
      · by_cases h2 : jsonTruthy (jsonGet (Json.obj fields) "request_id") = true
        · cases hdb : dbOk with
          | true =>
            subst hdb
            cases hem : jsonGet (Json.obj fields) "emotion" with
            | str emotion =>
              have h1s : jsonTruthy (Json.str emotion) = true := by
                rw [hem] at h1; exact h1
              simp only [callback, hem, h1s, h2, and_self, if_true, true_and]
                at hmem
              rcases List.mem_cons.mp hmem with h | h
              · injection h with hq hout
                exact ⟨fields, emotion, rfl, rfl, hem, h1, h2, hq, hout⟩
              · rcases List.mem_cons.mp h with h | h
                · cases h
                · exact absurd h (List.not_mem_nil _)
            | null =>
              rw [hem] at h1
              simp [jsonTruthy] at h1
            | bool b =>
              rw [hem] at h1
              simp [callback, hem, h1, h2] at hmem
            | num q =>
              rw [hem] at h1
              simp [callback, hem, h1, h2] at hmem
            | arr xs =>
              rw [hem] at h1
              simp [callback, hem, h1, h2] at hmem
            | obj gs =>
              rw [hem] at h1
              simp [callback, hem, h1, h2] at hmem
          | false =>
            subst hdb
            simp [callback, h1, h2] at hmem
        · simp [callback, h1, h2] at hmem
      · simp [callback, h1] at hmem
    | null => simp [callback] at hmem
    | bool b => simp [callback] at hmem
    | num q => simp [callback] at hmem
    | str s => simp [callback] at hmem
    | arr xs => simp [callback] at hmem

end WorkerRecomendador

lemma jsonGet_gateway_out (q : Json) (rid : String) :
    jsonGet (Json.obj [("query", q), ("request_id", Json.str rid)]) "request_id"
      = Json.str rid := by
  simp [jsonGet, List.lookup]

lemma jsonGet_emotion_out (e : String) (rid texto : Json) :
    jsonGet
      (Json.obj
        [("emotion", Json.str e), ("request_id", rid), ("query", texto)])
      "request_id" = rid := by
  simp [jsonGet, List.lookup]

lemma jsonGet_recommender_out (rid recs : Json) :
    jsonGet (Json.obj [("request_id", rid), ("recommendations", recs)])
      "request_id" = rid := by
  simp [jsonGet, List.lookup]

/-- C2: Publish-before-ack ordering.  On a successfully transformed message,
each worker callback performs exactly the publish of the enriched message to
its next queue followed by the acknowledgment of the input message; and in
every possible trace of either callback, a publish action precedes any
acknowledgment. -/
theorem C2_publish_before_ack :
    (∀ (predict : Json → Option String) (fs : List (String × Json))
       (emocion : String),
      jsonTruthy (jsonGetD (Json.obj fs) "query" (Json.str "")) = true →
      jsonTruthy (jsonGet (Json.obj fs) "request_id") = true →
      predict (jsonGetD (Json.obj fs) "query" (Json.str "")) = some emocion →
      WorkerEmotion.callback (some predict) (some (Json.obj fs))
        = [Act.publish WorkerEmotion.NEXT_QUEUE_NAME
             (Json.obj
               [("emotion", Json.str emocion),
                ("request_id", jsonGet (Json.obj fs) "request_id"),
                ("query", jsonGetD (Json.obj fs) "query" (Json.str ""))]),
           Act.ack])
    ∧ (∀ (getRecs : String → List WorkerRecomendador.Candidate)
         (rw : String → String → String) (fs : List (String × Json))
         (emotion : String),
        jsonGet (Json.obj fs) "emotion" = Json.str emotion →
        emotion ≠ "" →
        jsonTruthy (jsonGet (Json.obj fs) "request_id") = true →
        WorkerRecomendador.callback getRecs rw true (some (Json.obj fs))
          = [Act.publish WorkerRecomendador.QUEUE_NAME_OUT
               (Json.obj
                 [("request_id", jsonGet (Json.obj fs) "request_id"),
                  ("recommendations",
                   Json.arr (((getRecs emotion).map
                       (WorkerRecomendador.personalizeMovie rw emotion)).map
                     WorkerRecomendador.encodePersonalized))]),
             Act.ack])
    ∧ (∀ (analyzer : Option (Json → Option String)) (raw : Option Json)
         (i j : ℕ) (q : String) (b : Json),
        (WorkerEmotion.callback analyzer raw)[i]? = some (Act.publish q b) →
        (WorkerEmotion.callback analyzer raw)[j]? = some Act.ack → i < j)
    ∧ (∀ (getRecs : String → List WorkerRecomendador.Candidate)
         (rw : String → String → String) (dbOk : Bool) (raw : Option Json)
         (i j : ℕ) (q : String) (b : Json),
        (WorkerRecomendador.callback getRecs rw dbOk raw)[i]?
          = some (Act.publish q b) →
        (WorkerRecomendador.callback getRecs rw dbOk raw)[j]?
          = some Act.ack → i < j) := by
  refine ⟨?_, ?_, ?_, ?_⟩
  · intro predict fs emocion h1 h2 hp
    simp [WorkerEmotion.callback, h1, h2, hp]
  · intro getRecs rw fs emotion hem hne hrid
    have h1 : jsonTruthy (Json.str emotion) = true := by simp [jsonTruthy, hne]
    simp [WorkerRecomendador.callback, hem, h1, hrid]
  · intro analyzer raw i j q b hpub hack
    rcases WorkerEmotion.emotion_callback_shape analyzer raw with h | h | ⟨q', b', h⟩ <;>
      rw [h] at hpub hack
    · match i with
      | 0 => simp at hpub
      | i + 1 => simp at hpub
    · match i with
      | 0 => simp at hpub
      | i + 1 => simp at hpub
    · match i, j with
      | 0, 0 => simp at hack
      | 0, j + 1 => exact Nat.succ_pos j
      | 1, _ => simp at hpub
      | i + 2, _ => simp at hpub
  · intro getRecs rw dbOk raw i j q b hpub hack
    rcases WorkerRecomendador.recomendador_callback_shape getRecs rw dbOk raw with
      h | h | h | ⟨q', b', h⟩ <;> rw [h] at hpub hack
    · match i with
      | 0 => simp at hpub
      | i + 1 => simp at hpub
    · match i with
      | 0 => simp at hpub
      | i + 1 => simp at hpub
    · match i with
      | 0 => simp at hpub
      | i + 1 => simp at hpub
    · match i, j with
      | 0, 0 => simp at hack
      | 0, j + 1 => exact Nat.succ_pos j
      | 1, _ => simp at hpub
      | i + 2, _ => simp at hpub

theorem C2_publish_before_ack_witness :
    WorkerEmotion.callback (some (fun _ => some "joy"))
        (some (Json.obj
          [("query", Json.str "hola"), ("request_id", Json.str "t1")]))
      = [Act.publish WorkerEmotion.NEXT_QUEUE_NAME
           (Json.obj
             [("emotion", Json.str "joy"),
              ("request_id", Json.str "t1"),
              ("query", Json.str "hola")]),
         Act.ack]
    ∧ WorkerRecomendador.callback (fun _ => []) (fun s _ => s) true
        (some (Json.obj
          [("emotion", Json.str "joy"), ("request_id", Json.str "t1")]))
      = [Act.publish WorkerRecomendador.QUEUE_NAME_OUT
           (Json.obj
             [("request_id", Json.str "t1"),
              ("recommendations", Json.arr [])]),
         Act.ack] := by
  constructor
  · have h := C2_publish_before_ack.1 (fun _ => some "joy")
      [("query", Json.str "hola"), ("request_id", Json.str "t1")] "joy"
      (by decide) (by decide) rfl
    simpa using h
  · have h := C2_publish_before_ack.2.1 (fun _ => []) (fun s _ => s)
      [("emotion", Json.str "joy"), ("request_id", Json.str "t1")] "joy"
      (by decide) (by decide) (by decide)
    simpa using h

/-- C4: Token propagation invariant.  The message published by the gateway
carries exactly the freshly minted token; and whenever a worker publishes an
output message, the input message had a truthy correlation token and the
output carries exactly that token — a stage that cannot read a valid token
publishes nothing. -/
theorem C4_token_propagation :
    (∀ (cUp : Bool) (data : Json) (rid qname : String) (body : Json),
      (qname, body) ∈ (WebApp.recommend cUp data rid).2 →
      jsonGet body "request_id" = Json.str rid)
    ∧ (∀ (analyzer : Option (Json → Option String)) (raw : Option Json)
         (q : String) (out : Json),
        Act.publish q out ∈ WorkerEmotion.callback analyzer raw →
        ∃ data, raw = some data
          ∧ jsonTruthy (jsonGet data "request_id") = true
          ∧ jsonGet out "request_id" = jsonGet data "request_id")
    ∧ (∀ (getRecs : String → List WorkerRecomendador.Candidate)
         (rw : String → String → String) (dbOk : Bool) (raw : Option Json)
         (q : String) (out : Json),
        Act.publish q out ∈ WorkerRecomendador.callback getRecs rw dbOk raw →
        ∃ data, raw = some data
          ∧ jsonTruthy (jsonGet data "request_id") = true
          ∧ jsonGet out "request_id" = jsonGet data "request_id") := by
  refine ⟨?_, ?_, ?_⟩
  · intro cUp data rid qname body hmem
    cases cUp with
    | false => simp [WebApp.recommend] at hmem
    | true =>
      cases data with
      | obj fields =>
        by_cases hq : jsonTruthy (jsonGet (Json.obj fields) "query") = true
        · simp only [WebApp.recommend, hq, Bool.true_eq_false, if_false,
            if_true, List.mem_singleton, Prod.mk.injEq] at hmem
          rw [hmem.2]
          exact jsonGet_gateway_out _ _
        · simp [WebApp.recommend, hq] at hmem
      | null => simp [WebApp.recommend] at hmem
      | bool b => simp [WebApp.recommend] at hmem
      | num q => simp [WebApp.recommend] at hmem
      | str s => simp [WebApp.recommend] at hmem
      | arr xs => simp [WebApp.recommend] at hmem
  · intro analyzer raw q out hmem
    obtain ⟨predict, fields, emocion, _, hraw, _, hrid, _, _, hout⟩ :=
      WorkerEmotion.emotion_callback_publish_inv analyzer raw q out hmem
    exact ⟨Json.obj fields, hraw, hrid, by rw [hout]; exact jsonGet_emotion_out _ _ _⟩
  · intro getRecs rw dbOk raw q out hmem
    obtain ⟨fields, emotion, hraw, _, _, _, hrid, _, hout⟩ :=
      WorkerRecomendador.recomendador_callback_publish_inv getRecs rw dbOk raw q out hmem
    exact ⟨Json.obj fields, hraw, hrid, by rw [hout]; exact jsonGet_recommender_out _ _⟩

theorem C4_token_propagation_witness :
    jsonGet
      (Json.obj [("query", Json.str "hola"), ("request_id", Json.str "t2")])
      "request_id" = Json.str "t2"
    ∧ (∃ data,
        some (Json.obj
          [("query", Json.str "hola"), ("request_id", Json.str "t2")])
          = some data
        ∧ jsonTruthy (jsonGet data "request_id") = true
        ∧ jsonGet
            (Json.obj
              [("emotion", Json.str "joy"),
               ("request_id", Json.str "t2"),
               ("query", Json.str "hola")]) "request_id"
            = jsonGet data "request_id") := by
  constructor
  · exact C4_token_propagation.1 true
      (Json.obj [("query", Json.str "hola"), ("request_id", Json.str "t2")])
      "t2" WebApp.QUEUE_NAME_EMOTION
      (Json.obj [("query", Json.str "hola"), ("request_id", Json.str "t2")])
      (by decide)
  · exact C4_token_propagation.2.1 (some (fun _ => some "joy"))
      (some (Json.obj
        [("query", Json.str "hola"), ("request_id", Json.str "t2")]))
      WorkerEmotion.NEXT_QUEUE_NAME
      (Json.obj
        [("emotion", Json.str "joy"),
         ("request_id", Json.str "t2"),
         ("query", Json.str "hola")])
      (by decide)

/-- C5 counterexample: the submit route does not trim.  The one-space query
is empty after trimming whitespace, yet recommend accepts it, publishes a
pipeline message and returns a fresh token instead of rejecting it with a
client error. -/
theorem C5_counterexample :
    trimmedEmpty " " = true
    ∧ WebApp.recommend true (Json.obj [("query", Json.str " ")]) "tok5"
        = (WebApp.GwResponse.success "tok5",
           [(WebApp.QUEUE_NAME_EMOTION,
             Json.obj
               [("query", Json.str " "), ("request_id", Json.str "tok5")])]) := by
  constructor
  · decide
  · decide

/-- C5 (amended): the submit route rejects exactly the falsy query values —
an absent, null, or empty-string query — synchronously with a 400 client
error and publishes nothing; every truthy query, including a whitespace-only
one, is accepted: one durable message carrying the query and the freshly
minted token is published and the token is returned. -/
theorem C5_empty_input_rejection (fs : List (String × Json)) (rid : String) :
    (jsonTruthy (jsonGet (Json.obj fs) "query") = false →
      WebApp.recommend true (Json.obj fs) rid
        = (WebApp.GwResponse.badRequest, []))
    ∧ (jsonTruthy (jsonGet (Json.obj fs) "query") = true →
      WebApp.recommend true (Json.obj fs) rid
        = (WebApp.GwResponse.success rid,
           [(WebApp.QUEUE_NAME_EMOTION,
             Json.obj
               [("query", jsonGet (Json.obj fs) "query"),
                ("request_id", Json.str rid)])])) := by
  constructor
  · intro h
    simp [WebApp.recommend, h]
  · intro h
    simp [WebApp.recommend, h]

theorem C5_empty_input_rejection_witness :
    WebApp.recommend true (Json.obj [("query", Json.str "")]) "tok5b"
      = (WebApp.GwResponse.badRequest, [])
    ∧ WebApp.recommend true (Json.obj [("query", Json.str "feliz")]) "tok5c"
      = (WebApp.GwResponse.success "tok5c",
         [(WebApp.QUEUE_NAME_EMOTION,
           Json.obj
             [("query", Json.str "feliz"), ("request_id", Json.str "tok5c")])]) := by
  constructor
  · exact (C5_empty_input_rejection [("query", Json.str "")] "tok5b").1
      (by decide)
  · have h := (C5_empty_input_rejection [("query", Json.str "feliz")] "tok5c").2
      (by decide)
    simpa using h

/-- C6 counterexample: on an unparseable payload the recommender worker does
not acknowledge-and-drop as the claim states: it answers basic_nack with
requeue=False, a negative acknowledgment, so no acknowledgment appears in its
trace. -/
theorem C6_counterexample :
    WorkerRecomendador.callback (fun _ => []) (fun s _ => s) true none
      = [Act.nackDiscard]
    ∧ Act.ack ∉ WorkerRecomendador.callback (fun _ => []) (fun s _ => s) true
        none := by
  constructor
  · rfl
  · decide

/-- C6 (amended): poison messages are dropped without requeue by both
workers, but by different channel operations.  With its model loaded, the
emotion worker acknowledges-and-drops both an unparseable payload and an
object payload missing the query or the token; the recommender
acknowledges-and-drops an object payload missing the emotion or the token,
while it drops an unparseable payload with basic_nack requeue=False.  In all
these cases nothing is requeued and nothing is published, so the poison
message is never redelivered. -/
theorem C6_poison_message_handling :
    (∀ predict : Json → Option String,
      WorkerEmotion.callback (some predict) none = [Act.ack])
    ∧ (∀ (predict : Json → Option String) (fs : List (String × Json)),
        (jsonTruthy (jsonGetD (Json.obj fs) "query" (Json.str "")) = false ∨
         jsonTruthy (jsonGet (Json.obj fs) "request_id") = false) →
        WorkerEmotion.callback (some predict) (some (Json.obj fs)) = [Act.ack])
    ∧ (∀ (getRecs : String → List WorkerRecomendador.Candidate)
         (rw : String → String → String) (dbOk : Bool),
        WorkerRecomendador.callback getRecs rw dbOk none = [Act.nackDiscard])
    ∧ (∀ (getRecs : String → List WorkerRecomendador.Candidate)
         (rw : String → String → String) (dbOk : Bool)
         (fs : List (String × Json)),
        (jsonTruthy (jsonGet (Json.obj fs) "emotion") = false ∨
         jsonTruthy (jsonGet (Json.obj fs) "request_id") = false) →
        WorkerRecomendador.callback getRecs rw dbOk (some (Json.obj fs))
          = [Act.ack]) := by
  refine ⟨?_, ?_, ?_, ?_⟩
  · intro predict
    rfl
  · intro predict fs h
    rcases h with h | h
    · simp [WorkerEmotion.callback, h]
    · by_cases h1 : jsonTruthy (jsonGetD (Json.obj fs) "query" (Json.str "")) = true
      · simp [WorkerEmotion.callback, h1, h]
      · simp [WorkerEmotion.callback, h1]
  · intro getRecs rw dbOk
    rfl
  · intro getRecs rw dbOk fs h
    rcases h with h | h
    · simp [WorkerRecomendador.callback, h]
    · by_cases h1 : jsonTruthy (jsonGet (Json.obj fs) "emotion") = true
      · simp [WorkerRecomendador.callback, h1, h]
      · simp [WorkerRecomendador.callback, h1]

theorem C6_poison_message_handling_witness :
    WorkerEmotion.callback (some (fun _ => some "joy")) none = [Act.ack]
    ∧ WorkerEmotion.callback (some (fun _ => some "joy"))
        (some (Json.obj [("query", Json.str "hola")])) = [Act.ack]
    ∧ WorkerRecomendador.callback (fun _ => []) (fun s _ => s) true none
        = [Act.nackDiscard]
    ∧ WorkerRecomendador.callback (fun _ => []) (fun s _ => s) true
        (some (Json.obj [("emotion", Json.str "joy")])) = [Act.ack] := by
  refine ⟨?_, ?_, ?_, ?_⟩
  · exact C6_poison_message_handling.1 (fun _ => some "joy")
  · exact C6_poison_message_handling.2.1 (fun _ => some "joy")
      [("query", Json.str "hola")] (Or.inr (by decide))
  · exact C6_poison_message_handling.2.2.1 (fun _ => []) (fun s _ => s) true
  · exact C6_poison_message_handling.2.2.2 (fun _ => []) (fun s _ => s) true
      [("emotion", Json.str "joy")] (Or.inr (by decide))

/-- C7: Personalization fallback.  When the generative rewrite is
unavailable or its call fails (APIError or any other exception), the rewrite
returns the original synopsis unchanged; and with the client unavailable the
recommender callback still publishes the terminal result followed by the
acknowledgment, with every candidate whose original synopsis is truthy
keeping exactly that synopsis in its sinopsis field. -/
theorem C7_personalization_fallback (syn emo : String)
    (call : String → WorkerRecomendador.GenOutcome) :
    WorkerRecomendador.rewrite_synopsis_with_gemini none syn emo = syn
    ∧ (call (WorkerRecomendador.buildPrompt syn emo)
          = WorkerRecomendador.GenOutcome.apiError →
        WorkerRecomendador.rewrite_synopsis_with_gemini (some call) syn emo
          = syn)
    ∧ (call (WorkerRecomendador.buildPrompt syn emo)
          = WorkerRecomendador.GenOutcome.exn →
        WorkerRecomendador.rewrite_synopsis_with_gemini (some call) syn emo
          = syn)
    ∧ (∀ (getRecs : String → List WorkerRecomendador.Candidate)
         (fs : List (String × Json)) (emotion : String),
        jsonGet (Json.obj fs) "emotion" = Json.str emotion →
        emotion ≠ "" →
        jsonTruthy (jsonGet (Json.obj fs) "request_id") = true →
        WorkerRecomendador.callback getRecs
            (WorkerRecomendador.rewrite_synopsis_with_gemini none) true
            (some (Json.obj fs))
          = [Act.publish WorkerRecomendador.QUEUE_NAME_OUT
               (Json.obj
                 [("request_id", jsonGet (Json.obj fs) "request_id"),
                  ("recommendations",
                   Json.arr (((getRecs emotion).map
                       (WorkerRecomendador.personalizeMovie
                         (WorkerRecomendador.rewrite_synopsis_with_gemini
                           none)
                         emotion)).map
                     WorkerRecomendador.encodePersonalized))]),
             Act.ack]
        ∧ ∀ m ∈ getRecs emotion, ∀ s : String,
            m.resumen = some s → s ≠ "" →
            (WorkerRecomendador.personalizeMovie
              (WorkerRecomendador.rewrite_synopsis_with_gemini none) emotion
              m).sinopsis = s) := by
  refine ⟨rfl, ?_, ?_, ?_⟩
  · intro h
    simp [WorkerRecomendador.rewrite_synopsis_with_gemini, h]
  · intro h
    simp [WorkerRecomendador.rewrite_synopsis_with_gemini, h]
  · intro getRecs fs emotion hem hne hrid
    constructor
    · have h1 : jsonTruthy (Json.str emotion) = true := by
        simp [jsonTruthy, hne]
      simp [WorkerRecomendador.callback, hem, h1, hrid]
    · intro m hm s hs hsne
      simp [WorkerRecomendador.personalizeMovie, hs, hsne,
        WorkerRecomendador.rewrite_synopsis_with_gemini]

theorem C7_personalization_fallback_witness :
    WorkerRecomendador.rewrite_synopsis_with_gemini none
        "Una historia de aventuras." "triste" = "Una historia de aventuras."
    ∧ WorkerRecomendador.rewrite_synopsis_with_gemini
        (some (fun _ => WorkerRecomendador.GenOutcome.apiError))
        "Una historia de aventuras." "triste" = "Una historia de aventuras."
    ∧ (WorkerRecomendador.personalizeMovie
        (WorkerRecomendador.rewrite_synopsis_with_gemini none) "triste"
        { titulo := "Pelicula", resumen := some "Una historia de aventuras.",
          rating_imdb := 7, score := 1/2,
          emocion_buscada := "triste" }).sinopsis
      = "Una historia de aventuras." := by
  have h := C7_personalization_fallback "Una historia de aventuras." "triste"
    (fun _ => WorkerRecomendador.GenOutcome.apiError)
  refine ⟨h.1, h.2.1 rfl, ?_⟩
  exact (h.2.2.2
      (fun _ =>
        [{ titulo := "Pelicula", resumen := some "Una historia de aventuras.",
           rating_imdb := 7, score := 1/2, emocion_buscada := "triste" }])
      [("emotion", Json.str "triste"), ("request_id", Json.str "t7")]
      "triste" (by decide) (by decide) (by decide)).2
    { titulo := "Pelicula", resumen := some "Una historia de aventuras.",
      rating_imdb := 7, score := 1/2, emocion_buscada := "triste" }
    (by simp) "Una historia de aventuras." rfl (by decide)

/-- C8: Recommendation list shape.  For any catalog, emotion and configured
K, the ranking query returns at most K candidates, sorted descending by
score, where each score equals 1 minus the distance-operator value between
the query embedding and some catalog row embedding, and lies in [-1, 1]
whenever the distance operator (pgvector cosine distance) ranges in [0, 2].
The callback instantiates K = 5. -/
theorem C8_recommendation_list_shape (dOp : List ℚ → List ℚ → ℚ)
    (encode : String → List ℚ) (catalog : List WorkerRecomendador.MovieRow)
    (emotion : String) (lim : ℕ)
    (hD : ∀ a b : List ℚ, 0 ≤ dOp a b ∧ dOp a b ≤ 2) :
    (WorkerRecomendador.get_recommendations_from_db dOp encode catalog
        emotion lim).length ≤ lim
    ∧ List.Sorted
        (fun a b : WorkerRecomendador.Candidate => b.score ≤ a.score)
        (WorkerRecomendador.get_recommendations_from_db dOp encode catalog
          emotion lim)
    ∧ ∀ c ∈ WorkerRecomendador.get_recommendations_from_db dOp encode catalog
          emotion lim,
        ((-1 : ℚ) ≤ c.score ∧ c.score ≤ 1)
        ∧ ∃ r ∈ catalog, ∃ e : List ℚ, r.embedding = some e
            ∧ c.score
              = 1 - dOp
                  (encode
                    ("Una película que me haga sentir " ++ emotion.toLower))
                  e := by
  classical
  let qv := encode ("Una película que me haga sentir " ++ emotion.toLower)
  let dist : WorkerRecomendador.MovieRow → ℚ :=
    fun r => dOp qv (r.embedding.getD [])
  let rows := catalog.filter (fun r => r.embedding.isSome)
  let ranked := List.insertionSort (fun a b => dist a ≤ dist b) rows
  let mk : WorkerRecomendador.MovieRow → WorkerRecomendador.Candidate :=
    fun r =>
      { titulo := r.titulo
        resumen := r.resumen
        rating_imdb := r.rating_imdb
        score := 1 - dist r
        emocion_buscada := emotion }
  have hdef : WorkerRecomendador.get_recommendations_from_db dOp encode
      catalog emotion lim = (ranked.take lim).map mk := rfl
  haveI htot : IsTotal WorkerRecomendador.MovieRow
      (fun a b => dist a ≤ dist b) := ⟨fun a b => le_total _ _⟩
  haveI htrans : IsTrans WorkerRecomendador.MovieRow
      (fun a b => dist a ≤ dist b) := ⟨fun a b c h1 h2 => le_trans h1 h2⟩
  have hsorted : List.Sorted (fun a b => dist a ≤ dist b) ranked :=
    List.sorted_insertionSort _ _
  refine ⟨?_, ?_, ?_⟩
  · rw [hdef, List.length_map]
    exact List.length_take_le lim ranked
  · rw [hdef]
    have htake : List.Sorted (fun a b => dist a ≤ dist b) (ranked.take lim) :=
      List.Pairwise.sublist (List.take_sublist lim ranked) hsorted
    exact List.Pairwise.map mk
      (fun a b hab => by
        show (mk b).score ≤ (mk a).score
        simp only [mk]
        linarith)
      htake
  · intro c hc
    rw [hdef] at hc
    obtain ⟨r, hr, rfl⟩ := List.mem_map.mp hc
    have hrranked : r ∈ ranked := List.mem_of_mem_take hr
    have hrrows : r ∈ rows := (List.perm_insertionSort _ rows).mem_iff.mp hrranked
    have hrcat : r ∈ catalog ∧ r.embedding.isSome := by
      have := List.mem_filter.mp hrrows
      exact ⟨this.1, this.2⟩
    obtain ⟨e, he⟩ := Option.isSome_iff_exists.mp hrcat.2
    have hbounds := hD qv (r.embedding.getD [])
    refine ⟨⟨?_, ?_⟩, r, hrcat.1, e, he, ?_⟩
    · show (-1 : ℚ) ≤ 1 - dist r
      have : dist r ≤ 2 := hbounds.2
      linarith
    · show 1 - dist r ≤ 1
      have : 0 ≤ dist r := hbounds.1
      linarith
    · show 1 - dist r = 1 - dOp qv e
      simp [dist, he]

theorem C8_recommendation_list_shape_witness :
    (WorkerRecomendador.get_recommendations_from_db (fun _ _ => 1)
        (fun _ => []) [] "tristeza" 5).length ≤ 5
    ∧ List.Sorted
        (fun a b : WorkerRecomendador.Candidate => b.score ≤ a.score)
        (WorkerRecomendador.get_recommendations_from_db (fun _ _ => 1)
          (fun _ => []) [] "tristeza" 5) := by
  have h := C8_recommendation_list_shape (fun _ _ => 1) (fun _ => []) []
    "tristeza" 5 (by intro a b; norm_num)
  exact ⟨h.1, h.2.1⟩

/-- C10: Empty candidate list still reaches ready.  When the ranking yields
no candidates (an empty catalog gives the empty list, and the query error
branch returns the empty list as well), the recommender still publishes a
terminal result with an empty recommendations list and acknowledges; the
Result Sink accepts it (an empty list is not None) and stores it; and
polling that token returns ready with the empty list rather than pending. -/
theorem C10_empty_candidates_reach_ready (fs : List (String × Json))
    (rw : String → String → String) (cache : WebApp.Cache)
    (emotion s : String)
    (hem : jsonGet (Json.obj fs) "emotion" = Json.str emotion)
    (hemne : emotion ≠ "")
    (hrid : jsonGet (Json.obj fs) "request_id" = Json.str s)
    (hsne : s ≠ "") :
    WorkerRecomendador.callback (fun _ => []) rw true (some (Json.obj fs))
      = [Act.publish WorkerRecomendador.QUEUE_NAME_OUT
           (Json.obj
             [("request_id", Json.str s), ("recommendations", Json.arr [])]),
         Act.ack]
    ∧ (∀ (dOp : List ℚ → List ℚ → ℚ) (encode : String → List ℚ)
         (emo : String) (lim : ℕ),
        WorkerRecomendador.get_recommendations_from_db dOp encode [] emo lim
          = [])
    ∧ WebApp.result_callback cache
        (some (Json.obj
          [("request_id", Json.str s), ("recommendations", Json.arr [])]))
      = (WebApp.cacheInsert cache (Json.str s) (Json.arr []), Act.ack)
    ∧ WebApp.get_result
        (WebApp.cacheInsert cache (Json.str s) (Json.arr [])) s
      = (WebApp.PollResult.ready (Json.arr []),
         WebApp.cacheErase
           (WebApp.cacheInsert cache (Json.str s) (Json.arr []))
           (Json.str s)) := by
  have h1 : jsonTruthy (Json.str emotion) = true := by simp [jsonTruthy, hemne]
  have h2 : jsonTruthy (Json.str s) = true := by simp [jsonTruthy, hsne]
  refine ⟨?_, ?_, ?_, ?_⟩
  · simp [WorkerRecomendador.callback, hem, hrid, h1, h2]
  · intro dOp encode emo lim
    simp [WorkerRecomendador.get_recommendations_from_db]
  · simp [WebApp.result_callback, jsonGet, List.lookup, h2]
  · simp [WebApp.get_result, WebApp.cacheLookup_cacheInsert_self]

theorem C10_empty_candidates_reach_ready_witness :
    WorkerRecomendador.callback (fun _ => []) (fun a _ => a) true
        (some (Json.obj
          [("emotion", Json.str "sadness"), ("request_id", Json.str "t10")]))
      = [Act.publish WorkerRecomendador.QUEUE_NAME_OUT
           (Json.obj
             [("request_id", Json.str "t10"),
              ("recommendations", Json.arr [])]),
         Act.ack]
    ∧ WebApp.get_result [(Json.str "t10", Json.arr [])] "t10"
      = (WebApp.PollResult.ready (Json.arr []), []) := by
  have h := C10_empty_candidates_reach_ready
    [("emotion", Json.str "sadness"), ("request_id", Json.str "t10")]
    (fun a _ => a) [] "sadness" "t10"
    (by decide) (by decide) (by decide) (by decide)
  refine ⟨h.1, ?_⟩
  have h4 := h.2.2.2
  simpa using h4
